import Mathlib

-- Verification development for the multi-tenant appointment booking API of
-- this repository. The primary handler lives in functions/agendamentos.js;
-- functions/auth.js holds a variant auth middleware; an unnamed source file
-- holds an alternative handler with a centralised access check. The
-- relational store (a supabase table named agendamentos) is embedded as a
-- list of rows; the repository defines no store-side uniqueness constraint,
-- so the embedded insert always succeeds. The spreadsheet mirror is embedded
-- as an explicit sheet state plus a failure flag for its external calls.

/-- JS truthiness of an optional string field: undefined, null and the empty
string are falsy, every other string is truthy. -/
def strFalsy : Option String → Bool
  | none => true
  | some s => s == ""

/-- A row of the agendamentos table, as written by the handlers in
functions/agendamentos.js. -/
structure Appointment where
  id : Nat
  cliente : String
  nome : String
  email : String
  telefone : String
  data : String
  horario : String
  status : String
  confirmado : Bool
  deriving Repr, DecidableEq

/-- Shape check for an ISO YYYY-MM-DD calendar date over its characters:
four digits, dash, two digits, dash, two digits, with month and day in
calendar range. -/
def isIsoDateChars : List Char → Bool
  | [y1, y2, y3, y4, s1, m1, m2, s2, d1, d2] =>
      s1 == '-' && s2 == '-' &&
      y1.isDigit && y2.isDigit && y3.isDigit && y4.isDigit &&
      m1.isDigit && m2.isDigit && d1.isDigit && d2.isDigit &&
      decide (1 ≤ (m1.toNat - 48) * 10 + (m2.toNat - 48)) &&
      decide ((m1.toNat - 48) * 10 + (m2.toNat - 48) ≤ 12) &&
      decide (1 ≤ (d1.toNat - 48) * 10 + (d2.toNat - 48)) &&
      decide ((d1.toNat - 48) * 10 + (d2.toNat - 48) ≤ 31)
  | _ => false

/-- Shape check for an ISO YYYY-MM-DD calendar date. -/
def isIsoDate (s : String) : Bool := isIsoDateChars s.data

/-- True when the character list ends with the letter Z. -/
def endsWithZ (l : List Char) : Bool :=
  match l.getLast? with
  | some c => c == 'Z'
  | none => false

/-- Model of the platform expression new Date(s).toISOString().split("T")[0]
used by the Book handler, on the input shapes the API is meant to receive:
an ISO date YYYY-MM-DD (parsed as UTC midnight) is echoed back, and such a
date followed by a T...Z UTC time suffix keeps its date part. Every other
input is treated as Invalid Date, on which toISOString throws, modelled as
none; the enclosing handler turns the throw into a 500 response. Local-time
or offset suffixes, which can shift the calendar date, are outside the
domain of this model and of every claim. -/
def normalizeDate (s : String) : Option String :=
  if isIsoDateChars s.data then some s
  else
    match s.data with
    | y1 :: y2 :: y3 :: y4 :: s1 :: m1 :: m2 :: s2 :: d1 :: d2 :: 'T' :: rest =>
        if isIsoDateChars [y1, y2, y3, y4, s1, m1, m2, s2, d1, d2] && endsWithZ rest then
          some (String.mk [y1, y2, y3, y4, s1, m1, m2, s2, d1, d2])
        else none
    | _ => none

/-- ASCII lower-casing, as String.prototype.toLowerCase acts on the ASCII
range of the email field. -/
def jsToLower (s : String) : String := ⟨s.data.map Char.toLower⟩

/-- Whitespace trimming at both ends, as String.prototype.trim. -/
def jsTrim (s : String) : String :=
  ⟨((s.data.dropWhile Char.isWhitespace).reverse.dropWhile Char.isWhitespace).reverse⟩

/-- State of the per-tenant mirror spreadsheet: a header row plus data rows,
each row a list of (column, value) cells. -/
structure Sheet where
  headers : List String
  rows : List (List (String × String))
  deriving Repr, DecidableEq

/-- Column keys of an appointment row as mirrored to the sheet. -/
def appointmentKeys : List String :=
  ["id", "cliente", "nome", "email", "telefone", "data", "horario", "status", "confirmado"]

/-- Cell values of an appointment row as mirrored to the sheet. -/
def rowCells (a : Appointment) : List (String × String) :=
  [("id", toString a.id), ("cliente", a.cliente), ("nome", a.nome),
   ("email", a.email), ("telefone", a.telefone), ("data", a.data),
   ("horario", a.horario), ("status", a.status),
   ("confirmado", if a.confirmado then "true" else "false")]

/-- Model of ensureDynamicHeaders in functions/agendamentos.js: when the
sheet has no header row, loadHeaderRow throws and the header is initialised
from the incoming keys; afterwards any still missing keys are appended
(column union, never shrink). -/
def ensureDynamicHeaders (sheet : Sheet) (newKeys : List String) : Sheet :=
  let current := if sheet.headers.isEmpty then newKeys else sheet.headers
  ⟨current ++ newKeys.filter (fun k => !current.contains k), sheet.rows⟩

/-- Overwrite one cell of a mirror row, adding it when absent. -/
def setCell (cells : List (String × String)) (k v : String) : List (String × String) :=
  if cells.any (fun c => c.1 == k) then
    cells.map (fun c => if c.1 == k then (k, v) else c)
  else cells ++ [(k, v)]

/-- Update the first mirror row whose id cell matches, as rows.find does. -/
def updateFirstRow (rowId : String) (f : List (String × String) → List (String × String)) :
    List (List (String × String)) → List (List (String × String))
  | [] => []
  | r :: rest =>
      if r.lookup "id" == some rowId then f r :: rest
      else r :: updateFirstRow rowId f rest

/-- Model of updateRowInSheet in functions/agendamentos.js: upsert by id,
writing only the columns present in the current header when the row exists,
appending the full row (extending the header first) when it does not. -/
def updateRowInSheet (sheet : Sheet) (rowId : String) (updated : List (String × String)) : Sheet :=
  if sheet.rows.any (fun r => r.lookup "id" == some rowId) then
    ⟨sheet.headers,
     updateFirstRow rowId
       (fun r => updated.foldl
         (fun r' kv => if sheet.headers.contains kv.1 then setCell r' kv.1 kv.2 else r') r)
       sheet.rows⟩
  else
    let s := ensureDynamicHeaders sheet (updated.map (fun kv => kv.1))
    ⟨s.headers, s.rows ++ [updated]⟩

/-- The identity provider view of an authenticated user: the user id and the
cliente_id claim carried in user_metadata, when present. -/
structure AuthUser where
  id : String
  metaClienteId : Option String
  deriving Repr, DecidableEq

/-- External collaborators of the auth middleware: the bearer token extracted
from the request header (none when absent), the identity provider lookup,
and the users table lookup returning the cliente_id column of the row for a
user id (the column itself may be null). -/
structure AuthEnv where
  token : Option String
  getUser : String → Option AuthUser
  usersTable : String → Option (Option String)

/-- Result of the auth middleware: an error envelope or a resolved tenant. -/
inductive AuthResult where
  | err (statusCode : Nat) (msg : String)
  | ok (clienteId : String)
  deriving Repr, DecidableEq

/-- Model of authMiddleware in functions/agendamentos.js (the unnamed
handler file carries the identical middleware): resolve cliente_id from the
token claims, then from the users table, then fall back to the default
tenant cliente1; every authenticated user resolves to some tenant. -/
def authMiddleware (env : AuthEnv) : AuthResult :=
  match env.token with
  | none => .err 401 "Token não enviado"
  | some t =>
    match env.getUser t with
    | none => .err 401 "Token inválido"
    | some u =>
      let c1 := u.metaClienteId
      let c2 := if strFalsy c1 then
          match env.usersTable u.id with
          | some v => v
          | none => c1
        else c1
      match c2 with
      | some s => if s == "" then .ok "cliente1" else .ok s
      | none => .ok "cliente1"

/-- Model of authMiddleware in functions/auth.js: reads cliente_id from the
token claims only and fails with 403 when it is falsy, performing no users
table lookup and applying no default tenant. -/
def authMiddlewareAuthJs (env : AuthEnv) : AuthResult :=
  match env.token with
  | none => .err 401 "Token não enviado"
  | some t =>
    match env.getUser t with
    | none => .err 401 "Token inválido"
    | some u =>
      match u.metaClienteId with
      | some s => if s == "" then .err 403 "Usuário sem cliente_id" else .ok s
      | none => .err 403 "Usuário sem cliente_id"

/-- Model of horarioDisponivel in functions/agendamentos.js: true when no
non-cancelled appointment other than ignoreId occupies the given
(cliente, data, horario) slot. -/
def horarioDisponivel (db : List Appointment) (cliente dataReq horario : String)
    (ignoreId : Option Nat) : Bool :=
  let base := db.filter fun (a : Appointment) =>
    a.cliente == cliente && a.data == dataReq && a.horario == horario && a.status != "cancelado"
  let ags := match ignoreId with
    | some i => base.filter fun (a : Appointment) => a.id != i
    | none => base
  ags.length == 0

/-- Response envelope of one handler invocation together with the resulting
authoritative store and mirror sheet states. -/
structure HandlerResult where
  statusCode : Nat
  msg : String
  db : List Appointment
  agendamento : Option Appointment
  agendamentos : Option (List Appointment)
  sheet : Sheet
  deriving Repr, DecidableEq

/-- Boolean comparison realising order by data ascending then horario
ascending, as the ordered select of the list route requests. -/
def agLe (a b : Appointment) : Bool :=
  if a.data == b.data then decide (a.horario ≤ b.horario) else decide (a.data < b.data)

/-- Insertion step of the sort used to model the ordered select. -/
def insertSorted (a : Appointment) : List Appointment → List Appointment
  | [] => [a]
  | b :: rest => if agLe a b then a :: b :: rest else b :: insertSorted a rest

/-- Sort modelling the ordered select of the list route. -/
def sortAgenda : List Appointment → List Appointment
  | [] => []
  | a :: rest => insertSorted a (sortAgenda rest)

/-- The five body fields of the Book route, each possibly absent. -/
structure BookPayload where
  Nome : Option String
  Email : Option String
  Telefone : Option String
  Data : Option String
  Horario : Option String
  deriving Repr, DecidableEq

/-- Model of the GET list route of the main handler in
functions/agendamentos.js: an empty tenant is rejected before auth, the
admin tenant bypasses the tenant mismatch check, and on success the
non-cancelled rows of the tenant are returned ordered by data then
horario. -/
def listOp (auth : AuthResult) (cliente : String) (db : List Appointment) (sheet : Sheet) :
    HandlerResult :=
  if cliente == "" then ⟨400, "Cliente não especificado", db, none, none, sheet⟩
  else
    match auth with
    | .err c m => ⟨c, m, db, none, none, sheet⟩
    | .ok cid =>
      if cid != cliente && cid != "admin" then ⟨403, "Acesso negado", db, none, none, sheet⟩
      else
        ⟨200, "", db, none,
         some (sortAgenda (db.filter fun a => a.cliente == cliente && a.status != "cancelado")),
         sheet⟩

/-- Model of the POST agendar route of the main handler in
functions/agendamentos.js. The access check compares the resolved tenant
with the requested tenant with no admin exemption. Validation rejects any
falsy field. The date is normalised; an unparseable date makes toISOString
throw, which the outer catch turns into a 500 with no write. Rows for the
same slot whose status is cancelado are deleted, then the new row with
status pendente is inserted; the repository defines no store uniqueness
constraint, so the insert always succeeds. The mirror step appends a sheet
row and is skipped whole when the mirror fails. -/
def agendarOp (auth : AuthResult) (cliente : String) (p : BookPayload) (newId : Nat)
    (db : List Appointment) (sheet : Sheet) (mirrorFails : Bool) : HandlerResult :=
  match auth with
  | .err c m => ⟨c, m, db, none, none, sheet⟩
  | .ok cid =>
    if cid != cliente then ⟨403, "Acesso negado", db, none, none, sheet⟩
    else if strFalsy p.Nome || strFalsy p.Email || strFalsy p.Telefone ||
        strFalsy p.Data || strFalsy p.Horario then
      ⟨400, "Todos os campos obrigatórios", db, none, none, sheet⟩
    else
      match normalizeDate (p.Data.getD "") with
      | none => ⟨500, "Erro interno no servidor", db, none, none, sheet⟩
      | some dataNormalizada =>
        let novo : Appointment :=
          ⟨newId, cliente, p.Nome.getD "", jsTrim (jsToLower (p.Email.getD "")),
           p.Telefone.getD "", dataNormalizada, p.Horario.getD "", "pendente", false⟩
        let db2 := (db.filter fun a =>
          !(a.cliente == cliente && a.data == dataNormalizada &&
            a.horario == p.Horario.getD "" && a.status == "cancelado")) ++ [novo]
        let sheet2 := if mirrorFails then sheet else
          let s := ensureDynamicHeaders sheet appointmentKeys
          ⟨s.headers, s.rows ++ [rowCells novo]⟩
        ⟨200, "Agendamento realizado com sucesso!", db2, some novo, none, sheet2⟩

/-- Model of the POST confirmar route of the main handler in
functions/agendamentos.js. The access check has no admin exemption. The
update sets confirmado and status on every row matching (id, cliente)
regardless of its current status; the select().single() call demands
exactly one affected row, and on any other count the request, and with it
the enclosing store transaction, fails, which the outer catch turns into a
500 with the store unchanged. -/
def confirmarOp (auth : AuthResult) (cliente : String) (id : Nat)
    (db : List Appointment) (sheet : Sheet) (mirrorFails : Bool) : HandlerResult :=
  match auth with
  | .err c m => ⟨c, m, db, none, none, sheet⟩
  | .ok cid =>
    if cid != cliente then ⟨403, "Acesso negado", db, none, none, sheet⟩
    else
      match (db.filter fun a => a.id == id && a.cliente == cliente).map
          (fun a => { a with confirmado := true, status := "confirmado" }) with
      | [a] =>
        ⟨200, "Agendamento confirmado",
         db.map (fun x => if x.id == id && x.cliente == cliente then
           { x with confirmado := true, status := "confirmado" } else x),
         some a, none,
         if mirrorFails then sheet else updateRowInSheet sheet (toString id) (rowCells a)⟩
      | _ => ⟨500, "Erro interno no servidor", db, none, none, sheet⟩

/-- Model of the POST cancelar route of the main handler in
functions/agendamentos.js, with the same shape as the confirmar route but
setting status cancelado and confirmado false. -/
def cancelarOp (auth : AuthResult) (cliente : String) (id : Nat)
    (db : List Appointment) (sheet : Sheet) (mirrorFails : Bool) : HandlerResult :=
  match auth with
  | .err c m => ⟨c, m, db, none, none, sheet⟩
  | .ok cid =>
    if cid != cliente then ⟨403, "Acesso negado", db, none, none, sheet⟩
    else
      match (db.filter fun a => a.id == id && a.cliente == cliente).map
          (fun a => { a with status := "cancelado", confirmado := false }) with
      | [a] =>
        ⟨200, "Agendamento cancelado",
         db.map (fun x => if x.id == id && x.cliente == cliente then
           { x with status := "cancelado", confirmado := false } else x),
         some a, none,
         if mirrorFails then sheet else updateRowInSheet sheet (toString id) (rowCells a)⟩
      | _ => ⟨500, "Erro interno no servidor", db, none, none, sheet⟩

/-- Model of the POST reagendar route of the main handler in
functions/agendamentos.js. The body is validated before auth runs; the
access check has no admin exemption; the availability check excludes the
appointment being moved; the update writes novaData and novoHorario
verbatim, with no date normalisation, and never touches status. -/
def reagendarOp (auth : AuthResult) (cliente : String) (id : Nat)
    (novaData novoHorario : Option String) (db : List Appointment) (sheet : Sheet)
    (mirrorFails : Bool) : HandlerResult :=
  if strFalsy novaData || strFalsy novoHorario then
    ⟨400, "Data e horário obrigatórios", db, none, none, sheet⟩
  else
    match auth with
    | .err c m => ⟨c, m, db, none, none, sheet⟩
    | .ok cid =>
      if cid != cliente then ⟨403, "Acesso negado", db, none, none, sheet⟩
      else
        let nd := novaData.getD ""
        let nh := novoHorario.getD ""
        if !horarioDisponivel db cliente nd nh (some id) then
          ⟨400, "Horário indisponível", db, none, none, sheet⟩
        else
          match (db.filter fun a => a.id == id && a.cliente == cliente).map
              (fun a => { a with data := nd, horario := nh }) with
          | [a] =>
            ⟨200, "Agendamento reagendado com sucesso",
             db.map (fun x => if x.id == id && x.cliente == cliente then
               { x with data := nd, horario := nh } else x),
             some a, none,
             if mirrorFails then sheet else updateRowInSheet sheet (toString id) (rowCells a)⟩
          | _ => ⟨500, "Erro interno no servidor", db, none, none, sheet⟩

/-- A live appointment is one whose status is not cancelado. -/
def isLive (a : Appointment) : Bool := a.status != "cancelado"

/-- Number of live appointments occupying one (cliente, data, horario)
slot. -/
def slotCount (db : List Appointment) (c d h : String) : Nat :=
  (db.filter fun a => a.cliente == c && a.data == d && a.horario == h && isLive a).length

/-- The uniqueness invariant of the spec: at most one live appointment per
slot. -/
def slotInvariant (db : List Appointment) : Prop :=
  ∀ c d h, slotCount db c d h ≤ 1

-- Concrete fixtures used by counterexamples and witnesses.

/-- Empty mirror sheet fixture. -/
def emptySheet : Sheet := ⟨[], []⟩

/-- A pending appointment occupying the 09:00 slot of 2024-05-01. -/
def apptPend : Appointment :=
  ⟨1, "cliente1", "Ana", "ana@x.com", "123", "2024-05-01", "09:00", "pendente", false⟩

/-- A cancelled appointment occupying the same slot key as apptPend. -/
def apptCanc : Appointment :=
  ⟨2, "cliente1", "Bia", "bia@x.com", "456", "2024-05-01", "09:00", "cancelado", false⟩

/-- Booking payload naming the slot already held by apptPend. -/
def payloadBia : BookPayload :=
  ⟨some "Bia", some "bia@x.com", some "456", some "2024-05-01", some "09:00"⟩

/-- Booking payload with a mixed-case, padded email. -/
def payloadAna : BookPayload :=
  ⟨some "Ana", some " ANA@X.com ", some "123", some "2024-05-01", some "09:00"⟩

/-- Booking payload whose date the platform date parser cannot parse. -/
def payloadBadDate : BookPayload :=
  ⟨some "Ana", some "ana@x.com", some "123", some "not-a-date", some "09:00"⟩

/-- Environment of an authenticated user whose token claims lack cliente_id
and whose users table row binds the user to cliente7. -/
def envNoClaims : AuthEnv :=
  ⟨some "tok", fun t => if t == "tok" then some ⟨"u1", none⟩ else none,
   fun u => if u == "u1" then some (some "cliente7") else none⟩

/-- Environment of an authenticated user with no tenant binding anywhere:
no cliente_id claim and no users table row. -/
def envNoBinding : AuthEnv :=
  ⟨some "tok", fun t => if t == "tok" then some ⟨"u1", none⟩ else none,
   fun _ => none⟩

-- Shared helper lemmas about the embedded store operations.

/-- Filtering by p after filtering by a pointwise weaker q equals filtering
by p alone. -/
theorem filter_filter_of_imp {α : Type} (p q : α → Bool) (l : List α)
    (himp : ∀ a, p a = true → q a = true) : (l.filter q).filter p = l.filter p := by
  induction l with
  | nil => rfl
  | cons a rest ih =>
    cases hq : q a with
    | true => simp [List.filter_cons, hq, ih]
    | false =>
      have hp : p a = false := by
        cases hpa : p a
        · rfl
        · rw [himp a hpa] at hq; exact absurd hq (by simp)
      simp [List.filter_cons, hq, hp, ih]

/-- Membership in a store after an in-place update: each row either was
already present or is the image under the update of a present row. -/
theorem mem_update_map {p : Appointment → Bool} {f : Appointment → Appointment}
    {db : List Appointment} {a : Appointment}
    (ha : a ∈ db.map fun x => if p x then f x else x) :
    a ∈ db ∨ ∃ x, x ∈ db ∧ a = f x := by
  rcases List.mem_map.1 ha with ⟨x, hx, hfx⟩
  by_cases hpx : p x = true
  · right
    refine ⟨x, hx, ?_⟩
    rw [← hfx]
    simp [hpx]
  · left
    have hxx : (if p x then f x else x) = x := by simp [hpx]
    rw [← hfx, hxx]
    exact hx

/-- An in-place update whose rewriting function preserves status leaves the
list of statuses unchanged. -/
theorem map_status_update (p : Appointment → Bool) (f : Appointment → Appointment)
    (hf : ∀ x, (f x).status = x.status) (db : List Appointment) :
    (db.map fun x => if p x then f x else x).map Appointment.status
      = db.map Appointment.status := by
  induction db with
  | nil => rfl
  | cons a rest ih =>
    simp only [List.map_cons, ih]
    by_cases hp : p a = true
    · simp [hp, hf]
    · simp [hp]

/-- Success path of the Book handler: with the tenant check passing, all
fields truthy and the date parseable, the handler deletes the cancelled
rows of the target slot, inserts the pending row and answers 200. -/
theorem agendar_success (c : String) (p : BookPayload) (newId : Nat)
    (db : List Appointment) (sheet : Sheet) (mf : Bool) (d : String)
    (hNome : strFalsy p.Nome = false) (hEmail : strFalsy p.Email = false)
    (hTel : strFalsy p.Telefone = false) (hData : strFalsy p.Data = false)
    (hHorF : strFalsy p.Horario = false)
    (hnd : normalizeDate (p.Data.getD "") = some d) :
    agendarOp (.ok c) c p newId db sheet mf =
      ⟨200, "Agendamento realizado com sucesso!",
       (db.filter fun a => !(a.cliente == c && a.data == d &&
          a.horario == p.Horario.getD "" && a.status == "cancelado")) ++
         [⟨newId, c, p.Nome.getD "", jsTrim (jsToLower (p.Email.getD "")),
           p.Telefone.getD "", d, p.Horario.getD "", "pendente", false⟩],
       some ⟨newId, c, p.Nome.getD "", jsTrim (jsToLower (p.Email.getD "")),
           p.Telefone.getD "", d, p.Horario.getD "", "pendente", false⟩, none,
       if mf then sheet else
         let s := ensureDynamicHeaders sheet appointmentKeys
         ⟨s.headers, s.rows ++ [rowCells ⟨newId, c, p.Nome.getD "",
           jsTrim (jsToLower (p.Email.getD "")), p.Telefone.getD "", d,
           p.Horario.getD "", "pendente", false⟩]⟩⟩ := by
  simp [agendarOp, hNome, hEmail, hTel, hData, hHorF, hnd]

-- Claim C1: slot uniqueness under all operations.

/-- C1, counterexample: the claim fails on the code. From a store satisfying
the uniqueness invariant, in which one live pending appointment holds the
slot, an authorized Book for the same (tenant, date, time) returns 200 and
the store afterwards holds two live appointments for that key: the handler
never rejects the second booking. -/
theorem C1_counterexample :
    slotInvariant [apptPend] ∧
    (agendarOp (.ok "cliente1") "cliente1" payloadBia 2 [apptPend] emptySheet false).statusCode
      = 200 ∧
    slotCount (agendarOp (.ok "cliente1") "cliente1" payloadBia 2 [apptPend]
      emptySheet false).db "cliente1" "2024-05-01" "09:00" = 2 :=
  ⟨fun _ _ _ => List.length_filter_le _ _, by decide, by decide⟩

/-- C1, amended: the Book handler performs no availability check, so slot
uniqueness is not enforced on booking. For any store in which exactly one
live appointment occupies the slot (c, d, h), an authorized Book for that
same slot, with truthy fields, time h and a date normalising to d, succeeds
with 200 and leaves two live appointments on the slot; only a store side
uniqueness constraint could prevent this, and the repository defines none. -/
theorem C1_amended (c d h : String) (p : BookPayload) (newId : Nat)
    (db : List Appointment) (sheet : Sheet) (mf : Bool)
    (hNome : strFalsy p.Nome = false) (hEmail : strFalsy p.Email = false)
    (hTel : strFalsy p.Telefone = false) (hData : strFalsy p.Data = false)
    (hHor : p.Horario = some h) (hh : h ≠ "")
    (hnd : normalizeDate (p.Data.getD "") = some d)
    (hocc : slotCount db c d h = 1) :
    (agendarOp (.ok c) c p newId db sheet mf).statusCode = 200 ∧
    slotCount (agendarOp (.ok c) c p newId db sheet mf).db c d h = 2 := by
  have hHorF : strFalsy p.Horario = false := by
    rw [hHor]
    simpa [strFalsy] using hh
  have hs := agendar_success c p newId db sheet mf d hNome hEmail hTel hData hHorF hnd
  rw [hs]
  refine ⟨rfl, ?_⟩
  have hgd : p.Horario.getD "" = h := by rw [hHor]; rfl
  rw [hgd]
  unfold slotCount at hocc ⊢
  rw [List.filter_append,
    filter_filter_of_imp
      (fun a => a.cliente == c && a.data == d && a.horario == h && isLive a)
      (fun a => !(a.cliente == c && a.data == d && a.horario == h && a.status == "cancelado"))
      db ?imp]
  case imp =>
    intro a hpa
    simp only [Bool.and_eq_true, isLive, bne_iff_ne, ne_eq] at hpa
    have hcanc : (a.status == "cancelado") = false := by
      simpa using hpa.2
    simp [hcanc]
  · rw [List.length_append, hocc]
    simp [isLive]

/-- C1, witness for the amended theorem at a concrete double booking. -/
theorem C1_amended_witness :
    (agendarOp (.ok "cliente1") "cliente1" payloadAna 9 [apptPend] emptySheet true).statusCode
      = 200 ∧
    slotCount (agendarOp (.ok "cliente1") "cliente1" payloadAna 9 [apptPend]
      emptySheet true).db "cliente1" "2024-05-01" "09:00" = 2 :=
  C1_amended "cliente1" "2024-05-01" "09:00" payloadAna 9 [apptPend] emptySheet true
    (by decide) (by decide) (by decide) (by decide) rfl (by decide) (by decide) (by decide)

-- Claim C2: the appointment status state machine.

/-- C2, counterexample: the claim fails on the code. A row whose status is
cancelado is mutated again: Confirm on a cancelled appointment succeeds
with 200 and rewrites its status to confirmado, so cancelado is not
terminal and confirmado is reachable from a state other than pendente. -/
theorem C2_counterexample :
    apptCanc.status = "cancelado" ∧
    (confirmarOp (.ok "cliente1") "cliente1" 2 [apptCanc] emptySheet false).statusCode = 200 ∧
    (confirmarOp (.ok "cliente1") "cliente1" 2 [apptCanc] emptySheet false).db.map
      Appointment.status = ["confirmado"] := by
  refine ⟨rfl, by decide, by decide⟩

/-- C2, amended: pendente is written only by Book, Reschedule never changes
any status, and Confirm and Cancel write only confirmado and cancelado
respectively; but they do so regardless of the current status of the row,
so cancelado is not terminal. Stated as: every row after Book is an old row
or pendente; Reschedule preserves the list of statuses; every row after
Confirm is an old row or confirmado; every row after Cancel is an old row
or cancelado; and a successful Confirm leaves every (id, cliente) matching
row with status confirmado whatever status it had before. -/
theorem C2_amended :
    (∀ auth cliente p newId db sheet mf a,
        a ∈ (agendarOp auth cliente p newId db sheet mf).db →
          a ∈ db ∨ a.status = "pendente") ∧
    (∀ auth cliente id nd nh db sheet mf,
        (reagendarOp auth cliente id nd nh db sheet mf).db.map Appointment.status
          = db.map Appointment.status) ∧
    (∀ auth cliente id db sheet mf a,
        a ∈ (confirmarOp auth cliente id db sheet mf).db →
          a ∈ db ∨ a.status = "confirmado") ∧
    (∀ auth cliente id db sheet mf a,
        a ∈ (cancelarOp auth cliente id db sheet mf).db →
          a ∈ db ∨ a.status = "cancelado") ∧
    (∀ cliente id db sheet mf b,
        (confirmarOp (.ok cliente) cliente id db sheet mf).statusCode = 200 →
        b ∈ (confirmarOp (.ok cliente) cliente id db sheet mf).db →
        b.id = id → b.cliente = cliente → b.status = "confirmado") := by
  refine ⟨?_, ?_, ?_, ?_, ?_⟩
  · intro auth cliente p newId db sheet mf a ha
    cases auth with
    | err c m => exact Or.inl ha
    | ok cid =>
      simp only [agendarOp] at ha
      split at ha
      · exact Or.inl ha
      · split at ha
        · exact Or.inl ha
        · split at ha
          · exact Or.inl ha
          · simp only [List.mem_append, List.mem_singleton] at ha
            cases ha with
            | inl h => exact Or.inl (List.mem_of_mem_filter h)
            | inr h => exact Or.inr (by rw [h])
  · intro auth cliente id nd nh db sheet mf
    simp only [reagendarOp]
    split
    · rfl
    · split
      · rfl
      · split
        · rfl
        · split
          · rfl
          · split
            · dsimp only
              exact map_status_update (fun x => x.id == id && x.cliente == cliente)
                (fun x => { x with data := nd.getD "", horario := nh.getD "" })
                (fun x => rfl) db
            · rfl
  · intro auth cliente id db sheet mf a ha
    cases auth with
    | err c m => exact Or.inl ha
    | ok cid =>
      simp only [confirmarOp] at ha
      split at ha
      · exact Or.inl ha
      · split at ha
        · rcases mem_update_map ha with h | ⟨x, hx, rfl⟩
          · exact Or.inl h
          · exact Or.inr rfl
        · exact Or.inl ha
  · intro auth cliente id db sheet mf a ha
    cases auth with
    | err c m => exact Or.inl ha
    | ok cid =>
      simp only [cancelarOp] at ha
      split at ha
      · exact Or.inl ha
      · split at ha
        · rcases mem_update_map ha with h | ⟨x, hx, rfl⟩
          · exact Or.inl h
          · exact Or.inr rfl
        · exact Or.inl ha
  · intro cliente id db sheet mf b hcode hb hid hcl
    simp only [confirmarOp, bne_self_eq_false, Bool.false_eq_true, if_false] at hcode hb
    rcases hl : (db.filter fun a => a.id == id && a.cliente == cliente).map
        (fun a => { a with confirmado := true, status := "confirmado" }) with _ | ⟨a, rest⟩
    · rw [hl] at hcode
      simp at hcode
    · cases rest with
      | nil =>
        rw [hl] at hb
        dsimp only at hb
        rcases List.mem_map.1 hb with ⟨x, hx, hfx⟩
        by_cases hpx : (x.id == id && x.cliente == cliente) = true
        · rw [if_pos hpx] at hfx
          rw [← hfx]
        · rw [if_neg hpx] at hfx
          exfalso
          apply hpx
          rw [hfx]
          simp [hid, hcl]
      | cons y rest2 =>
        rw [hl] at hcode
        simp at hcode

/-- C2, witness for the amended theorem: the row a successful Confirm leaves
behind for a matching id carries status confirmado. -/
theorem C2_amended_witness :
    (⟨2, "cliente1", "Bia", "bia@x.com", "456", "2024-05-01", "09:00", "confirmado",
      true⟩ : Appointment).status = "confirmado" :=
  C2_amended.2.2.2.2 "cliente1" 2 [apptCanc] emptySheet false
    ⟨2, "cliente1", "Bia", "bia@x.com", "456", "2024-05-01", "09:00", "confirmado", true⟩
    (by decide) (by decide) rfl rfl

-- Claim C3: the tenant authorization rule of each operation.

/-- C3, counterexample: the claim fails on the code. A caller resolved to
the admin tenant is refused a Book on behalf of another tenant with 403:
only the List route of the main handler exempts admin from the tenant
mismatch check. -/
theorem C3_counterexample :
    (agendarOp (.ok "admin") "cliente1" payloadAna 1 [] emptySheet false).statusCode = 403 := by
  decide

/-- C3, amended: in the main handler, List answers 403 exactly when the
resolved tenant differs from the requested one and is not admin, while
Book, Confirm, Cancel and Reschedule answer 403 exactly when the resolved
tenant differs from the requested one, with no admin exemption; Reschedule
validates its body before auth, so its 403 additionally requires truthy
body fields. -/
theorem C3_amended :
    (∀ cid cliente db sheet, cliente ≠ "" →
        ((listOp (.ok cid) cliente db sheet).statusCode = 403 ↔
          cid ≠ cliente ∧ cid ≠ "admin")) ∧
    (∀ cid cliente p newId db sheet mf,
        ((agendarOp (.ok cid) cliente p newId db sheet mf).statusCode = 403 ↔
          cid ≠ cliente)) ∧
    (∀ cid cliente id db sheet mf,
        ((confirmarOp (.ok cid) cliente id db sheet mf).statusCode = 403 ↔
          cid ≠ cliente)) ∧
    (∀ cid cliente id db sheet mf,
        ((cancelarOp (.ok cid) cliente id db sheet mf).statusCode = 403 ↔
          cid ≠ cliente)) ∧
    (∀ cid cliente id nd nh db sheet mf,
        ((reagendarOp (.ok cid) cliente id nd nh db sheet mf).statusCode = 403 ↔
          (strFalsy nd || strFalsy nh) = false ∧ cid ≠ cliente)) := by
  refine ⟨?_, ?_, ?_, ?_, ?_⟩
  · intro cid cliente db sheet hcl
    have h1 : (cliente == "") = false := beq_eq_false_iff_ne.mpr hcl
    by_cases hc : cid = cliente
    · subst hc
      simp [listOp, h1]
    · by_cases ha : cid = "admin"
      · subst ha
        simp [listOp, h1, hc]
      · simp [listOp, h1, hc, ha]
  · intro cid cliente p newId db sheet mf
    by_cases hc : cid = cliente
    · subst hc
      constructor
      · intro h403
        exfalso
        simp only [agendarOp, bne_self_eq_false, Bool.false_eq_true, if_false] at h403
        split at h403
        · simp at h403
        · split at h403
          · simp at h403
          · simp at h403
      · intro hne
        exact absurd rfl hne
    · have hb : (cid != cliente) = true := bne_iff_ne.mpr hc
      simp [agendarOp, hb, hc]
  · intro cid cliente id db sheet mf
    by_cases hc : cid = cliente
    · subst hc
      constructor
      · intro h403
        exfalso
        simp only [confirmarOp, bne_self_eq_false, Bool.false_eq_true, if_false] at h403
        split at h403
        · simp at h403
        · simp at h403
      · intro hne
        exact absurd rfl hne
    · have hb : (cid != cliente) = true := bne_iff_ne.mpr hc
      simp [confirmarOp, hb, hc]
  · intro cid cliente id db sheet mf
    by_cases hc : cid = cliente
    · subst hc
      constructor
      · intro h403
        exfalso
        simp only [cancelarOp, bne_self_eq_false, Bool.false_eq_true, if_false] at h403
        split at h403
        · simp at h403
        · simp at h403
      · intro hne
        exact absurd rfl hne
    · have hb : (cid != cliente) = true := bne_iff_ne.mpr hc
      simp [cancelarOp, hb, hc]
  · intro cid cliente id nd nh db sheet mf
    by_cases hv : (strFalsy nd || strFalsy nh) = true
    · simp [reagendarOp, hv]
    · have hv' : (strFalsy nd || strFalsy nh) = false := by
        cases h : (strFalsy nd || strFalsy nh)
        · rfl
        · exact absurd h hv
      by_cases hc : cid = cliente
      · subst hc
        constructor
        · intro h403
          exfalso
          simp only [reagendarOp, hv', Bool.false_eq_true, if_false, bne_self_eq_false]
            at h403
          split at h403
          · simp at h403
          · split at h403
            · simp at h403
            · simp at h403
        · intro hne
          exact absurd rfl hne.2
      · have hb : (cid != cliente) = true := bne_iff_ne.mpr hc
        simp [reagendarOp, hv', hb, hc]

/-- C3, witness for the amended theorem: the List route does exempt admin
at a concrete foreign tenant. -/
theorem C3_amended_witness :
    (listOp (.ok "admin") "cliente2" [] emptySheet).statusCode = 403 ↔
      ("admin" ≠ "cliente2" ∧ "admin" ≠ "admin") :=
  C3_amended.1 "admin" "cliente2" [] emptySheet (by decide)

-- Claim C4: Confirm and Cancel on a missing row, and their updates.

/-- C4, counterexample: the claim fails on the code. Confirm and Cancel on a
(tenant, id) with no matching row do not answer 404: the store single-row
error is rethrown and the generic catch answers 500. -/
theorem C4_counterexample :
    (confirmarOp (.ok "cliente1") "cliente1" 7 [] emptySheet false).statusCode = 500 ∧
    (cancelarOp (.ok "cliente1") "cliente1" 7 [] emptySheet false).statusCode = 500 := by
  refine ⟨by decide, by decide⟩

/-- C4, amended: Confirm and Cancel on a (tenant, id) with no matching row
fail with 500, the generic internal error, leaving the store unchanged;
when exactly one row matches, Confirm answers 200, sets status confirmado
with confirmado true and returns the updated row, and Cancel answers 200,
sets status cancelado with confirmado false and returns the updated row. -/
theorem C4_amended (cliente : String) (id : Nat) (db : List Appointment)
    (sheet : Sheet) (mf : Bool) :
    ((db.filter fun a => a.id == id && a.cliente == cliente) = [] →
        (confirmarOp (.ok cliente) cliente id db sheet mf).statusCode = 500 ∧
        (confirmarOp (.ok cliente) cliente id db sheet mf).db = db ∧
        (cancelarOp (.ok cliente) cliente id db sheet mf).statusCode = 500 ∧
        (cancelarOp (.ok cliente) cliente id db sheet mf).db = db) ∧
    (∀ a, (db.filter fun x => x.id == id && x.cliente == cliente) = [a] →
        (confirmarOp (.ok cliente) cliente id db sheet mf).statusCode = 200 ∧
        (confirmarOp (.ok cliente) cliente id db sheet mf).agendamento =
          some { a with status := "confirmado", confirmado := true } ∧
        (confirmarOp (.ok cliente) cliente id db sheet mf).db =
          db.map (fun x => if x.id == id && x.cliente == cliente then
            { x with status := "confirmado", confirmado := true } else x) ∧
        (cancelarOp (.ok cliente) cliente id db sheet mf).statusCode = 200 ∧
        (cancelarOp (.ok cliente) cliente id db sheet mf).agendamento =
          some { a with status := "cancelado", confirmado := false } ∧
        (cancelarOp (.ok cliente) cliente id db sheet mf).db =
          db.map (fun x => if x.id == id && x.cliente == cliente then
            { x with status := "cancelado", confirmado := false } else x)) := by
  constructor
  · intro hnil
    simp only [confirmarOp, cancelarOp, bne_self_eq_false, Bool.false_eq_true, if_false,
      hnil, List.map_nil]
    simp
  · intro a hone
    simp only [confirmarOp, cancelarOp, bne_self_eq_false, Bool.false_eq_true, if_false,
      hone, List.map_cons, List.map_nil]
    simp

/-- C4, witness for the amended theorem: Confirm of the concrete pending row
answers 200 with the confirmed row. -/
theorem C4_amended_witness :
    (confirmarOp (.ok "cliente1") "cliente1" 1 [apptPend] emptySheet false).statusCode = 200 ∧
    (confirmarOp (.ok "cliente1") "cliente1" 1 [apptPend] emptySheet false).agendamento =
      some { apptPend with status := "confirmado", confirmado := true } :=
  ⟨((C4_amended "cliente1" 1 [apptPend] emptySheet false).2 apptPend (by decide)).1,
   ((C4_amended "cliente1" 1 [apptPend] emptySheet false).2 apptPend (by decide)).2.1⟩

-- Claim C5: Book validation, normalization and insertion.

/-- C5, counterexample: the claim fails on the code. With all five required
fields present but a date the platform cannot parse, Book does not reach
the otherwise branch of the claim: toISOString throws and the handler
answers 500 without inserting anything. -/
theorem C5_counterexample :
    (strFalsy payloadBadDate.Nome || strFalsy payloadBadDate.Email ||
      strFalsy payloadBadDate.Telefone || strFalsy payloadBadDate.Data ||
      strFalsy payloadBadDate.Horario) = false ∧
    (agendarOp (.ok "cliente1") "cliente1" payloadBadDate 1 [] emptySheet false).statusCode
      = 500 ∧
    (agendarOp (.ok "cliente1") "cliente1" payloadBadDate 1 [] emptySheet false).db = [] := by
  refine ⟨by decide, by decide, by decide⟩

/-- C5, amended: Book answers 400 and writes nothing when any of the five
required fields is missing or empty; with all fields truthy it answers 500
and writes nothing when the date is unparseable; otherwise it inserts a row
with the email lower-cased and trimmed, the normalized date, status
pendente and confirmado false, and returns that created row. -/
theorem C5_amended (cliente : String) (p : BookPayload) (newId : Nat)
    (db : List Appointment) (sheet : Sheet) (mf : Bool) :
    ((strFalsy p.Nome || strFalsy p.Email || strFalsy p.Telefone ||
        strFalsy p.Data || strFalsy p.Horario) = true →
      (agendarOp (.ok cliente) cliente p newId db sheet mf).statusCode = 400 ∧
      (agendarOp (.ok cliente) cliente p newId db sheet mf).db = db) ∧
    ((strFalsy p.Nome || strFalsy p.Email || strFalsy p.Telefone ||
        strFalsy p.Data || strFalsy p.Horario) = false →
      normalizeDate (p.Data.getD "") = none →
      (agendarOp (.ok cliente) cliente p newId db sheet mf).statusCode = 500 ∧
      (agendarOp (.ok cliente) cliente p newId db sheet mf).db = db) ∧
    (∀ d, strFalsy p.Nome = false → strFalsy p.Email = false →
      strFalsy p.Telefone = false → strFalsy p.Data = false →
      strFalsy p.Horario = false →
      normalizeDate (p.Data.getD "") = some d →
      (agendarOp (.ok cliente) cliente p newId db sheet mf).statusCode = 200 ∧
      (agendarOp (.ok cliente) cliente p newId db sheet mf).agendamento =
        some ⟨newId, cliente, p.Nome.getD "", jsTrim (jsToLower (p.Email.getD "")),
          p.Telefone.getD "", d, p.Horario.getD "", "pendente", false⟩ ∧
      (agendarOp (.ok cliente) cliente p newId db sheet mf).db =
        (db.filter fun a => !(a.cliente == cliente && a.data == d &&
          a.horario == p.Horario.getD "" && a.status == "cancelado")) ++
        [⟨newId, cliente, p.Nome.getD "", jsTrim (jsToLower (p.Email.getD "")),
          p.Telefone.getD "", d, p.Horario.getD "", "pendente", false⟩]) := by
  refine ⟨?_, ?_, ?_⟩
  · intro hval
    simp only [agendarOp, bne_self_eq_false, Bool.false_eq_true, if_false, hval, if_true]
    simp
  · intro hval hnone
    simp only [agendarOp, bne_self_eq_false, Bool.false_eq_true, if_false, hval, hnone]
    simp
  · intro d hNome hEmail hTel hData hHor hnd
    have hs := agendar_success cliente p newId db sheet mf d hNome hEmail hTel hData hHor hnd
    rw [hs]
    exact ⟨rfl, rfl, rfl⟩

/-- C5, witness for the amended theorem: the concrete booking stores the
normalized email and a pendente row. -/
theorem C5_amended_witness :
    (agendarOp (.ok "cliente1") "cliente1" payloadAna 3 [] emptySheet false).statusCode
      = 200 ∧
    (agendarOp (.ok "cliente1") "cliente1" payloadAna 3 [] emptySheet false).agendamento =
      some ⟨3, "cliente1", "Ana", jsTrim (jsToLower " ANA@X.com "), "123", "2024-05-01",
        "09:00", "pendente", false⟩ :=
  ⟨((C5_amended "cliente1" payloadAna 3 [] emptySheet false).2.2 "2024-05-01"
      (by decide) (by decide) (by decide) (by decide) (by decide) (by decide)).1,
   ((C5_amended "cliente1" payloadAna 3 [] emptySheet false).2.2 "2024-05-01"
      (by decide) (by decide) (by decide) (by decide) (by decide) (by decide)).2.1⟩

-- Claim C6: slot reclamation by Book.

/-- C6, confirmed: Book first deletes every row of the target
(tenant, normalized date, time) slot whose status is cancelado and then
inserts the new pending row; when the slot is occupied only by cancelled
rows, the booking answers 200 and the slot afterwards holds exactly one
live row, the freshly inserted one, with every cancelled occupant
physically removed. -/
theorem C6_slot_reclamation (cliente h : String) (p : BookPayload) (newId : Nat)
    (db : List Appointment) (sheet : Sheet) (mf : Bool) (d : String)
    (hNome : strFalsy p.Nome = false) (hEmail : strFalsy p.Email = false)
    (hTel : strFalsy p.Telefone = false) (hData : strFalsy p.Data = false)
    (hHor : p.Horario = some h) (hh : h ≠ "")
    (hnd : normalizeDate (p.Data.getD "") = some d) :
    (agendarOp (.ok cliente) cliente p newId db sheet mf).db =
      (db.filter fun a => !(a.cliente == cliente && a.data == d &&
        a.horario == h && a.status == "cancelado")) ++
      [⟨newId, cliente, p.Nome.getD "", jsTrim (jsToLower (p.Email.getD "")),
        p.Telefone.getD "", d, h, "pendente", false⟩] ∧
    ((∀ a ∈ db, a.cliente = cliente → a.data = d → a.horario = h →
        a.status = "cancelado") →
      (agendarOp (.ok cliente) cliente p newId db sheet mf).statusCode = 200 ∧
      slotCount (agendarOp (.ok cliente) cliente p newId db sheet mf).db cliente d h = 1 ∧
      ∀ a ∈ (agendarOp (.ok cliente) cliente p newId db sheet mf).db,
        a.cliente = cliente → a.data = d → a.horario = h →
        a = ⟨newId, cliente, p.Nome.getD "", jsTrim (jsToLower (p.Email.getD "")),
          p.Telefone.getD "", d, h, "pendente", false⟩) := by
  have hHorF : strFalsy p.Horario = false := by
    rw [hHor]
    simpa [strFalsy] using hh
  have hgd : p.Horario.getD "" = h := by rw [hHor]; rfl
  have hs := agendar_success cliente p newId db sheet mf d hNome hEmail hTel hData hHorF hnd
  rw [hs, hgd]
  refine ⟨rfl, ?_⟩
  intro hcanc
  refine ⟨rfl, ?_, ?_⟩
  · unfold slotCount
    rw [List.filter_append]
    have hleft : (db.filter fun a => !(a.cliente == cliente && a.data == d &&
        a.horario == h && a.status == "cancelado")).filter
        (fun a => a.cliente == cliente && a.data == d && a.horario == h && isLive a) = [] := by
      rw [List.filter_eq_nil_iff]
      intro a ha
      have hmem := List.mem_of_mem_filter ha
      have hq := List.of_mem_filter ha
      intro hpred
      simp only [Bool.and_eq_true, beq_iff_eq, isLive, bne_iff_ne, ne_eq] at hpred
      exact hpred.2 (hcanc a hmem hpred.1.1.1 hpred.1.1.2 hpred.1.2)
    rw [hleft]
    simp [isLive]
  · intro a ha hcl hda hho
    rcases List.mem_append.1 ha with hin | hin
    · exfalso
      have hmem := List.mem_of_mem_filter hin
      have hq := List.of_mem_filter hin
      have hst := hcanc a hmem hcl hda hho
      simp [hcl, hda, hho, hst] at hq
    · simpa using hin

/-- C6, witness: booking into the slot held only by the cancelled row
removes it and leaves one live row. -/
theorem C6_slot_reclamation_witness :
    (agendarOp (.ok "cliente1") "cliente1" payloadBia 5 [apptCanc] emptySheet false).statusCode
      = 200 ∧
    slotCount (agendarOp (.ok "cliente1") "cliente1" payloadBia 5 [apptCanc]
      emptySheet false).db "cliente1" "2024-05-01" "09:00" = 1 :=
  ⟨((C6_slot_reclamation "cliente1" "09:00" payloadBia 5 [apptCanc] emptySheet false
      "2024-05-01" (by decide) (by decide) (by decide) (by decide) rfl (by decide)
      (by decide)).2 (by decide)).1,
   ((C6_slot_reclamation "cliente1" "09:00" payloadBia 5 [apptCanc] emptySheet false
      "2024-05-01" (by decide) (by decide) (by decide) (by decide) rfl (by decide)
      (by decide)).2 (by decide)).2.1⟩

-- Claim C7: Reschedule validation, conflict detection and in-place update.

/-- C7, confirmed: Reschedule answers 400 when novaData or novoHorario is
falsy, before anything else runs; the availability check returns true
exactly when no appointment other than the one being moved occupies the
target slot with a non-cancelled status; the authorized operation answers
the conflict 400 exactly when such an occupant exists; and otherwise, when
one row matches (id, cliente), it updates data and horario in place on that
row and returns it. -/
theorem C7_reschedule (cliente : String) (id : Nat) (nd' nh' : Option String)
    (db : List Appointment) (sheet : Sheet) (mf : Bool) :
    ((strFalsy nd' || strFalsy nh') = true → ∀ auth,
        (reagendarOp auth cliente id nd' nh' db sheet mf).statusCode = 400 ∧
        (reagendarOp auth cliente id nd' nh' db sheet mf).db = db) ∧
    (∀ nd nh, nd' = some nd → nh' = some nh → nd ≠ "" → nh ≠ "" →
      (horarioDisponivel db cliente nd nh (some id) = true ↔
        ∀ a ∈ db, ¬(a.id ≠ id ∧ a.cliente = cliente ∧ a.data = nd ∧ a.horario = nh ∧
          a.status ≠ "cancelado")) ∧
      (((reagendarOp (.ok cliente) cliente id nd' nh' db sheet mf).statusCode = 400 ∧
        (reagendarOp (.ok cliente) cliente id nd' nh' db sheet mf).msg
          = "Horário indisponível") ↔
        ∃ a ∈ db, a.id ≠ id ∧ a.cliente = cliente ∧ a.data = nd ∧ a.horario = nh ∧
          a.status ≠ "cancelado") ∧
      (∀ a, (db.filter fun x => x.id == id && x.cliente == cliente) = [a] →
        horarioDisponivel db cliente nd nh (some id) = true →
        (reagendarOp (.ok cliente) cliente id nd' nh' db sheet mf).statusCode = 200 ∧
        (reagendarOp (.ok cliente) cliente id nd' nh' db sheet mf).agendamento =
          some { a with data := nd, horario := nh } ∧
        (reagendarOp (.ok cliente) cliente id nd' nh' db sheet mf).db =
          db.map (fun x => if x.id == id && x.cliente == cliente then
            { x with data := nd, horario := nh } else x))) := by
  constructor
  · intro hval auth
    simp only [reagendarOp, hval, if_true]
    simp
  · intro nd nh hnd hnh hndne hnhne
    subst hnd
    subst hnh
    have hvalF : (strFalsy (some nd) || strFalsy (some nh)) = false := by
      simp [strFalsy, hndne, hnhne]
    have hlen : ∀ (l : List Appointment), (l.length == 0) = true ↔ l = [] := by
      intro l
      cases l <;> simp
    have hiff : horarioDisponivel db cliente nd nh (some id) = true ↔
        ∀ a ∈ db, ¬(a.id ≠ id ∧ a.cliente = cliente ∧ a.data = nd ∧ a.horario = nh ∧
          a.status ≠ "cancelado") := by
      simp only [horarioDisponivel]
      rw [hlen]
      constructor
      · intro hav a hadb hbad
        obtain ⟨hidne, hcl, hda, hho, hst⟩ := hbad
        have h1 : a ∈ db.filter fun x => x.cliente == cliente && x.data == nd &&
            x.horario == nh && x.status != "cancelado" :=
          List.mem_filter.2 ⟨hadb, by simp [hcl, hda, hho, hst]⟩
        have h2 : a ∈ (db.filter fun x => x.cliente == cliente && x.data == nd &&
            x.horario == nh && x.status != "cancelado").filter fun x => x.id != id :=
          List.mem_filter.2 ⟨h1, by simp [hidne]⟩
        rw [hav] at h2
        exact absurd h2 (List.not_mem_nil a)
      · intro hall
        rw [List.filter_eq_nil_iff]
        intro a ha hq2
        have hadb := List.mem_of_mem_filter ha
        have hq1 := List.of_mem_filter ha
        simp only [Bool.and_eq_true, beq_iff_eq, bne_iff_ne, ne_eq] at hq1 hq2
        exact hall a hadb ⟨hq2, hq1.1.1.1, hq1.1.1.2, hq1.1.2, hq1.2⟩
    refine ⟨hiff, ?_, ?_⟩
    · by_cases hdisp : horarioDisponivel db cliente nd nh (some id) = true
      · constructor
        · intro h400
          exfalso
          obtain ⟨hcode, hmsg⟩ := h400
          simp only [reagendarOp, hvalF, Bool.false_eq_true, if_false,
            bne_self_eq_false, Option.getD_some, hdisp, Bool.not_true] at hcode
          split at hcode
          · simp at hcode
          · simp at hcode
        · intro hex
          exfalso
          obtain ⟨a, ha, hbad⟩ := hex
          exact hiff.mp hdisp a ha hbad
      · have hdispF : horarioDisponivel db cliente nd nh (some id) = false := by
          cases hx : horarioDisponivel db cliente nd nh (some id)
          · rfl
          · exact absurd hx hdisp
        constructor
        · intro _
          by_contra hnex
          have hall : ∀ a ∈ db, ¬(a.id ≠ id ∧ a.cliente = cliente ∧ a.data = nd ∧
              a.horario = nh ∧ a.status ≠ "cancelado") := by
            intro a hadb hbad
            exact hnex ⟨a, hadb, hbad⟩
          have htrue := hiff.mpr hall
          rw [htrue] at hdispF
          exact absurd hdispF (by decide)
        · intro _
          simp only [reagendarOp, hvalF, Bool.false_eq_true, if_false,
            bne_self_eq_false, Option.getD_some, hdispF, Bool.not_false, if_true]
          simp
    · intro a hone hdisp
      simp only [reagendarOp, hvalF, Bool.false_eq_true, if_false, bne_self_eq_false,
        hdisp, Bool.not_true, Option.getD_some, hone, List.map_cons, List.map_nil]
      simp

/-- C7, witness: a concrete reschedule into a free slot updates the row in
place. -/
theorem C7_reschedule_witness :
    (reagendarOp (.ok "cliente1") "cliente1" 1 (some "2024-06-01") (some "10:00")
      [apptPend] emptySheet false).statusCode = 200 ∧
    (reagendarOp (.ok "cliente1") "cliente1" 1 (some "2024-06-01") (some "10:00")
      [apptPend] emptySheet false).agendamento =
      some { apptPend with data := "2024-06-01", horario := "10:00" } :=
  ⟨(((C7_reschedule "cliente1" 1 (some "2024-06-01") (some "10:00") [apptPend] emptySheet
      false).2 "2024-06-01" "10:00" rfl rfl (by decide) (by decide)).2.2 apptPend
      (by decide) (by decide)).1,
   (((C7_reschedule "cliente1" 1 (some "2024-06-01") (some "10:00") [apptPend] emptySheet
      false).2 "2024-06-01" "10:00" rfl rfl (by decide) (by decide)).2.2 apptPend
      (by decide) (by decide)).2.1⟩

/-- Every date the platform parser accepts is echoed in ISO shape. -/
theorem normalizeDate_iso (s d : String) (hnd : normalizeDate s = some d) :
    isIsoDate d = true := by
  unfold normalizeDate at hnd
  split at hnd
  · rename_i hiso
    injection hnd with h
    subst h
    exact hiso
  · split at hnd
    · rename_i y1 y2 y3 y4 s1 m1 m2 s2 d1 d2 rest
      split at hnd
      · rename_i hgood
        injection hnd with h
        subst h
        have := (Bool.and_eq_true _ _).mp hgood
        exact this.1
      · exact absurd hnd (by simp)
    · exact absurd hnd (by simp)

-- Claim C8: ISO date normalization of every stored row.

/-- C8, counterexample: the claim fails on the code. Reschedule stores its
novaData argument verbatim: moving the concrete appointment to the slash
formatted date 05/03/2024 succeeds and the stored row carries that non ISO
string. -/
theorem C8_counterexample :
    (reagendarOp (.ok "cliente1") "cliente1" 1 (some "05/03/2024") (some "10:00")
      [apptPend] emptySheet false).statusCode = 200 ∧
    (reagendarOp (.ok "cliente1") "cliente1" 1 (some "05/03/2024") (some "10:00")
      [apptPend] emptySheet false).db.map Appointment.data = ["05/03/2024"] ∧
    isIsoDate "05/03/2024" = false := by
  refine ⟨by decide, by decide, by decide⟩

/-- C8, amended: every row written by Book carries a date in ISO YYYY-MM-DD
shape, the output shape of the platform normalisation; Reschedule instead
stores its novaData argument verbatim with no normalisation, so rows it
writes are in ISO shape only when the caller already sent an ISO date. -/
theorem C8_amended :
    (∀ s d, normalizeDate s = some d → isIsoDate d = true) ∧
    (∀ auth cliente p newId db sheet mf a,
        a ∈ (agendarOp auth cliente p newId db sheet mf).db →
          a ∈ db ∨ isIsoDate a.data = true) ∧
    (∀ auth cliente id nd nh db sheet mf a,
        a ∈ (reagendarOp auth cliente id nd nh db sheet mf).db →
          a ∈ db ∨ a.data = nd.getD "") := by
  refine ⟨normalizeDate_iso, ?_, ?_⟩
  · intro auth cliente p newId db sheet mf a ha
    cases auth with
    | err c m => exact Or.inl ha
    | ok cid =>
      simp only [agendarOp] at ha
      split at ha
      · exact Or.inl ha
      · split at ha
        · exact Or.inl ha
        · split at ha
          · exact Or.inl ha
          · rename_i dataNorm heq
            simp only [List.mem_append, List.mem_singleton] at ha
            cases ha with
            | inl h => exact Or.inl (List.mem_of_mem_filter h)
            | inr h =>
              right
              rw [h]
              exact normalizeDate_iso _ _ heq
  · intro auth cliente id nd nh db sheet mf a ha
    simp only [reagendarOp] at ha
    split at ha
    · exact Or.inl ha
    · split at ha
      · exact Or.inl ha
      · split at ha
        · exact Or.inl ha
        · split at ha
          · exact Or.inl ha
          · split at ha
            · rcases mem_update_map ha with h | ⟨x, hx, rfl⟩
              · exact Or.inl h
              · exact Or.inr rfl
            · exact Or.inl ha

/-- C8, witness for the amended theorem: a UTC datetime input normalises to
an ISO date. -/
theorem C8_amended_witness : isIsoDate "2024-05-01" = true :=
  C8_amended.1 "2024-05-01T00:00:00Z" "2024-05-01" (by decide)

-- Claim C9: mirror failure never alters the response or the store.

/-- C9, confirmed: for every mutating operation, the response status,
message, returned row and authoritative store state are identical whether
the mirror calls fail or succeed; a mirror failure can only leave the sheet
unchanged, never roll back the write or change the answer, so an operation
whose authoritative write succeeds still answers 200 when the mirror is
unreachable. -/
theorem C9_mirror_non_blocking :
    (∀ auth cliente p newId db sheet mf,
      (agendarOp auth cliente p newId db sheet mf).statusCode
          = (agendarOp auth cliente p newId db sheet false).statusCode ∧
      (agendarOp auth cliente p newId db sheet mf).msg
          = (agendarOp auth cliente p newId db sheet false).msg ∧
      (agendarOp auth cliente p newId db sheet mf).db
          = (agendarOp auth cliente p newId db sheet false).db ∧
      (agendarOp auth cliente p newId db sheet mf).agendamento
          = (agendarOp auth cliente p newId db sheet false).agendamento) ∧
    (∀ auth cliente id db sheet mf,
      (confirmarOp auth cliente id db sheet mf).statusCode
          = (confirmarOp auth cliente id db sheet false).statusCode ∧
      (confirmarOp auth cliente id db sheet mf).msg
          = (confirmarOp auth cliente id db sheet false).msg ∧
      (confirmarOp auth cliente id db sheet mf).db
          = (confirmarOp auth cliente id db sheet false).db ∧
      (confirmarOp auth cliente id db sheet mf).agendamento
          = (confirmarOp auth cliente id db sheet false).agendamento) ∧
    (∀ auth cliente id db sheet mf,
      (cancelarOp auth cliente id db sheet mf).statusCode
          = (cancelarOp auth cliente id db sheet false).statusCode ∧
      (cancelarOp auth cliente id db sheet mf).msg
          = (cancelarOp auth cliente id db sheet false).msg ∧
      (cancelarOp auth cliente id db sheet mf).db
          = (cancelarOp auth cliente id db sheet false).db ∧
      (cancelarOp auth cliente id db sheet mf).agendamento
          = (cancelarOp auth cliente id db sheet false).agendamento) ∧
    (∀ auth cliente id nd nh db sheet mf,
      (reagendarOp auth cliente id nd nh db sheet mf).statusCode
          = (reagendarOp auth cliente id nd nh db sheet false).statusCode ∧
      (reagendarOp auth cliente id nd nh db sheet mf).msg
          = (reagendarOp auth cliente id nd nh db sheet false).msg ∧
      (reagendarOp auth cliente id nd nh db sheet mf).db
          = (reagendarOp auth cliente id nd nh db sheet false).db ∧
      (reagendarOp auth cliente id nd nh db sheet mf).agendamento
          = (reagendarOp auth cliente id nd nh db sheet false).agendamento) := by
  refine ⟨?_, ?_, ?_, ?_⟩
  · intro auth cliente p newId db sheet mf
    cases auth with
    | err c m => exact ⟨rfl, rfl, rfl, rfl⟩
    | ok cid =>
      simp only [agendarOp]
      split
      · exact ⟨rfl, rfl, rfl, rfl⟩
      · split
        · exact ⟨rfl, rfl, rfl, rfl⟩
        · split
          · exact ⟨rfl, rfl, rfl, rfl⟩
          · exact ⟨rfl, rfl, rfl, rfl⟩
  · intro auth cliente id db sheet mf
    cases auth with
    | err c m => exact ⟨rfl, rfl, rfl, rfl⟩
    | ok cid =>
      simp only [confirmarOp]
      split
      · exact ⟨rfl, rfl, rfl, rfl⟩
      · split
        · exact ⟨rfl, rfl, rfl, rfl⟩
        · exact ⟨rfl, rfl, rfl, rfl⟩
  · intro auth cliente id db sheet mf
    cases auth with
    | err c m => exact ⟨rfl, rfl, rfl, rfl⟩
    | ok cid =>
      simp only [cancelarOp]
      split
      · exact ⟨rfl, rfl, rfl, rfl⟩
      · split
        · exact ⟨rfl, rfl, rfl, rfl⟩
        · exact ⟨rfl, rfl, rfl, rfl⟩
  · intro auth cliente id nd nh db sheet mf
    simp only [reagendarOp]
    split
    · exact ⟨rfl, rfl, rfl, rfl⟩
    · cases auth with
      | err c m => exact ⟨rfl, rfl, rfl, rfl⟩
      | ok cid =>
        split
        · exact ⟨rfl, rfl, rfl, rfl⟩
        · split
          · exact ⟨rfl, rfl, rfl, rfl⟩
          · split
            · exact ⟨rfl, rfl, rfl, rfl⟩
            · split
              · exact ⟨rfl, rfl, rfl, rfl⟩
              · exact ⟨rfl, rfl, rfl, rfl⟩

-- Claim C10: tenant resolution of the authorization gate.

/-- C10, counterexample: the claim fails on the variant gate of
functions/auth.js. For an authenticated user whose token claims lack
cliente_id, that middleware answers the 403 error instead of consulting the
users table, where a binding to cliente7 exists, or applying the default
tenant: it does not return a tenant for every authenticated user. -/
theorem C10_counterexample :
    envNoClaims.getUser "tok" = some ⟨"u1", none⟩ ∧
    envNoClaims.usersTable "u1" = some (some "cliente7") ∧
    authMiddlewareAuthJs envNoClaims = .err 403 "Usuário sem cliente_id" := by
  refine ⟨by decide, by decide, by decide⟩

/-- C10, amended: the gate of functions/agendamentos.js behaves as the
claim states: for every authenticated user it resolves the tenant from the
token claims when truthy, else from the users table row when that holds a
truthy cliente_id, else falls back to the default tenant cliente1, and it
never returns an error; the variant gate in functions/auth.js instead
fails with 403 whenever the token claims lack a truthy cliente_id. -/
theorem C10_amended (env : AuthEnv) (t : String) (u : AuthUser)
    (htok : env.token = some t) (huser : env.getUser t = some u) :
    (∃ c, authMiddleware env = .ok c) ∧
    (∀ s, u.metaClienteId = some s → s ≠ "" → authMiddleware env = .ok s) ∧
    (strFalsy u.metaClienteId = true → ∀ v, env.usersTable u.id = some (some v) →
      v ≠ "" → authMiddleware env = .ok v) ∧
    (strFalsy u.metaClienteId = true →
      (env.usersTable u.id = none ∨ env.usersTable u.id = some none ∨
        env.usersTable u.id = some (some "")) →
      authMiddleware env = .ok "cliente1") := by
  have h2 : ∀ s, u.metaClienteId = some s → s ≠ "" → authMiddleware env = .ok s := by
    intro s hm hs
    have hsb : (s == "") = false := beq_eq_false_iff_ne.mpr hs
    simp [authMiddleware, htok, huser, hm, strFalsy, hsb]
  have h3 : strFalsy u.metaClienteId = true → ∀ v, env.usersTable u.id = some (some v) →
      v ≠ "" → authMiddleware env = .ok v := by
    intro hmf v ht hv
    have hvb : (v == "") = false := beq_eq_false_iff_ne.mpr hv
    simp [authMiddleware, htok, huser, hmf, ht, hvb]
  have h4 : strFalsy u.metaClienteId = true →
      (env.usersTable u.id = none ∨ env.usersTable u.id = some none ∨
        env.usersTable u.id = some (some "")) →
      authMiddleware env = .ok "cliente1" := by
    intro hmf hor
    rcases hor with ht | ht | ht
    · rcases hm : u.metaClienteId with _ | s
      · simp [authMiddleware, htok, huser, hmf, ht, hm]
      · have hs : s = "" := by
          rw [hm] at hmf
          simpa [strFalsy] using hmf
        subst hs
        simp [authMiddleware, htok, huser, hmf, ht, hm]
    · simp [authMiddleware, htok, huser, hmf, ht]
    · simp [authMiddleware, htok, huser, hmf, ht]
  refine ⟨?_, h2, h3, h4⟩
  by_cases hmf : strFalsy u.metaClienteId = true
  · rcases ht : env.usersTable u.id with _ | v
    · exact ⟨"cliente1", h4 hmf (Or.inl ht)⟩
    · rcases v with _ | s
      · exact ⟨"cliente1", h4 hmf (Or.inr (Or.inl ht))⟩
      · by_cases hs : s = ""
        · subst hs
          exact ⟨"cliente1", h4 hmf (Or.inr (Or.inr ht))⟩
        · exact ⟨s, h3 hmf s ht hs⟩
  · rcases hm : u.metaClienteId with _ | s
    · exact absurd (by simp [strFalsy, hm]) hmf
    · have hs : s ≠ "" := by
        intro h
        apply hmf
        simp [strFalsy, hm, h]
      exact ⟨s, h2 s hm hs⟩

/-- C10, witness for the amended theorem: the user with no binding at all
resolves to the default tenant. -/
theorem C10_amended_witness : authMiddleware envNoBinding = .ok "cliente1" :=
  (C10_amended envNoBinding "tok" ⟨"u1", none⟩ rfl (by decide)).2.2.2 (by decide)
    (Or.inl (by decide))
